import Mathlib

/-!
Shallow embedding of `SyncthingSnitch.py` (Marschelloss/SyncthingSnitch).

The program is a single-pass poller: it loads an integer cursor from a file,
performs one HTTP fetch of Syncthing disk events, filters each event through a
fixed chain of rules, notifies matching events via a Telegram bot with up to
three delivery attempts, advances the in-memory cursor, and finally writes the
cursor back to the file.

Modelling conventions:
* Python dict events become the `Event` structure (only the fields the program
  reads: `id`, `type`, `data.action`, `data.type`, `data.label`, `data.path`).
* `mimetypes.guess_type(path)[0]` is an external stdlib call; it is passed in
  as a function `guess : String → Option String`.
* `bot.sendMessage` either succeeds or raises `telegram.TelegramError`; the
  sequence of outcomes of successive attempts is passed in as an oracle
  `Nat → Bool` (`true` = the attempt succeeds, `false` = it raises
  `TelegramError`).
* `sleep` calls are counted, not timed.
* The cursor file is modelled by `CursorFileState`: absent, present with
  content that Python's `int()` rejects, or present with a stored integer.
* Uncaught Python exceptions are modelled with `Except Unit`.
-/

/-- The `data` sub-dictionary of a Syncthing disk event, restricted to the
keys the program reads. `dtype` stands for `event["data"]["type"]`. -/
structure EventData where
  action : String
  dtype : String
  label : String
  path : String
deriving DecidableEq, Repr

/-- One Syncthing disk event as the program reads it. `etype` stands for
`event["type"]`. -/
structure Event where
  id : Int
  etype : String
  data : EventData
deriving DecidableEq, Repr

/-- The command-line configuration fields that the core logic reads:
`args.label` (None or an accumulated list), `args.filter_movies`, and
`args.timeout`. -/
structure Config where
  label : Option (List String)
  filter_movies : Bool
  timeout : Nat
deriving DecidableEq, Repr

/-- Boolean substring containment on character lists: does the list start
with `needle`? This is the primitive behind Python's `in` on strings. -/
def startsWithChars : List Char → List Char → Bool
  | [], _ => true
  | _ :: _, [] => false
  | a :: as, b :: bs => a == b && startsWithChars as bs

/-- Boolean substring containment on character lists: does the second list
contain `needle` as a contiguous run? -/
def containsChars (needle : List Char) : List Char → Bool
  | [] => startsWithChars needle []
  | c :: rest => startsWithChars needle (c :: rest) || containsChars needle rest

/-- Python's `needle in hay` for strings: substring containment. -/
def pyIn (needle hay : String) : Bool :=
  containsChars needle.toList hay.toList

/-- The nested label check of `parse_event`, reached when `args.label` is not
None: `if not event["data"]["label"] in args.label`. -/
def labelFails (ls : List String) (e : Event) : Bool :=
  !(ls.contains e.data.label)

/-- The label rule as a whole: blocks only when an allow-list is configured
and the event's label is not in it. -/
def labelBlocks (cfg : Config) (e : Event) : Bool :=
  match cfg.label with
  | some ls => labelFails ls e
  | none => false

/-- The body of the movie filter, reached when `args.filter_movies` is set:
skip when the guessed mimetype is None or does not start with "video". -/
def movieFails (guess : String → Option String) (e : Event) : Bool :=
  match guess e.data.path with
  | none => true
  | some mt => !(mt.startsWith "video")

/-- The movie rule as a whole: blocks only when `--filter_movies` is enabled
and the mimetype check fails. -/
def movieBlocks (guess : String → Option String) (cfg : Config) (e : Event) : Bool :=
  cfg.filter_movies && movieFails guess e

/-- The sample-path exclusion of `parse_event`:
`if "sample" in event["data"]["path"] or "Sample" in event["data"]["path"]`. -/
def sampleBlocks (e : Event) : Bool :=
  pyIn "sample" e.data.path || pyIn "Sample" e.data.path

/-- `send_event`, reduced to its control flow: `for _ in range(3)` attempts,
each attempt either succeeds (break) or raises `TelegramError`, which is
caught, followed by `sleep(args.timeout)` and `continue`; after three
failures the for-else branch logs and the function returns normally.
`fuel` is the remaining range, `made` the attempts already made.
Returns (attempts made, sleeps performed, delivered?). -/
def sendAttempts (oracle : Nat → Bool) : Nat → Nat → Nat × Nat × Bool
  | 0, made => (made, made, false)
  | fuel + 1, made =>
    if oracle made then (made + 1, made, true)
    else sendAttempts oracle fuel (made + 1)

/-- `send_event(event, bot, args)`: up to three delivery attempts; the
message text itself is irrelevant to the claims and is not modelled. -/
def send_event (oracle : Nat → Bool) : Nat × Nat × Bool :=
  sendAttempts oracle 3 0

/-- `parse_event(event, bot, args)`: the filter chain. Every branch returns
`event["id"]`; the second component records whether `send_event` was invoked
and, if so, its outcome. -/
def parse_event (guess : String → Option String) (oracle : Nat → Bool)
    (e : Event) (cfg : Config) : Int × Option (Nat × Nat × Bool) :=
  if e.data.action != "modified" then (e.id, none)
  else if e.etype != "LocalChangeDetected" then (e.id, none)
  else if e.data.dtype != "file" then (e.id, none)
  else if labelBlocks cfg e then (e.id, none)
  else if movieBlocks guess cfg e then (e.id, none)
  else if sampleBlocks e then (e.id, none)
  else (e.id, some (send_event oracle))

/-- The six filter rules of `parse_event`, in source order. -/
inductive Rule
  | action
  | etype
  | ftype
  | label
  | movie
  | sample
deriving DecidableEq, Repr

/-- Whether a single rule passes for an event (an inapplicable rule —
no allow-list, movies filter off — counts as passing). -/
def rulePasses (guess : String → Option String) (cfg : Config) (e : Event) :
    Rule → Bool
  | Rule.action => e.data.action == "modified"
  | Rule.etype => e.etype == "LocalChangeDetected"
  | Rule.ftype => e.data.dtype == "file"
  | Rule.label =>
    match cfg.label with
    | some ls => !(labelFails ls e)
    | none => true
  | Rule.movie => !(movieFails guess e)
  | Rule.sample => !(sampleBlocks e)

/-- The rules `parse_event` can evaluate for a given configuration, in the
order the source evaluates them. -/
def applicableRules (cfg : Config) : List Rule :=
  [Rule.action, Rule.etype, Rule.ftype]
    ++ (if cfg.label.isSome then [Rule.label] else [])
    ++ (if cfg.filter_movies then [Rule.movie] else [])
    ++ [Rule.sample]

/-- Specification-side evaluator: walk a rule list in order, recording each
rule evaluated, stopping at the first failure. Written from the spec's words
("first failing rule short-circuits to skip"), to be compared with the
instrumented transcription of `parse_event`. -/
def firstFailEval (passes : Rule → Bool) : List Rule → List Rule × Bool
  | [] => ([], true)
  | r :: rs =>
    if passes r then
      ((firstFailEval passes rs).1.cons r, (firstFailEval passes rs).2)
    else ([r], false)

/-- Instrumented transcription of the tail of `parse_event` from the sample
check on: records that the sample rule was evaluated. -/
def sampleTrace (e : Event) (t : List Rule) : List Rule × Bool :=
  if sampleBlocks e then (t ++ [Rule.sample], false)
  else (t ++ [Rule.sample], true)

/-- Instrumented transcription of `parse_event` from the movie filter on:
the movie rule is evaluated only when `--filter_movies` is set. -/
def movieTrace (guess : String → Option String) (cfg : Config) (e : Event)
    (t : List Rule) : List Rule × Bool :=
  if cfg.filter_movies then
    if movieFails guess e then (t ++ [Rule.movie], false)
    else sampleTrace e (t ++ [Rule.movie])
  else sampleTrace e t

/-- Instrumented transcription of `parse_event` from the label check on:
the label rule is evaluated only when `args.label` is not None. -/
def labelTrace (guess : String → Option String) (cfg : Config) (e : Event)
    (t : List Rule) : List Rule × Bool :=
  match cfg.label with
  | some ls =>
    if labelFails ls e then (t ++ [Rule.label], false)
    else movieTrace guess cfg e (t ++ [Rule.label])
  | none => movieTrace guess cfg e t

/-- Instrumented transcription of the whole filter chain of `parse_event`:
which rules are evaluated, in order, and whether all of them passed
(i.e. whether `send_event` is reached). -/
def shouldNotifyTrace (guess : String → Option String) (cfg : Config)
    (e : Event) : List Rule × Bool :=
  if e.data.action != "modified" then ([Rule.action], false)
  else if e.etype != "LocalChangeDetected" then ([Rule.action, Rule.etype], false)
  else if e.data.dtype != "file" then
    ([Rule.action, Rule.etype, Rule.ftype], false)
  else labelTrace guess cfg e [Rule.action, Rule.etype, Rule.ftype]

/-- The event loop of `main`: `for event in events`, skipping events with
`id <= last_id` entirely, otherwise `last_id = parse_event(event, bot, args)`.
The delivery oracle may differ per event. Returns the final in-memory
`last_id` and, in order, the events for which `send_event` was invoked,
paired with the delivery outcome. -/
def processEvents (guess : String → Option String) (oracle : Event → Nat → Bool)
    (cfg : Config) : Int → List Event → Int × List (Event × (Nat × Nat × Bool))
  | last, [] => (last, [])
  | last, e :: rest =>
    if e.id ≤ last then processEvents guess oracle cfg last rest
    else
      match parse_event guess (oracle e) e cfg with
      | (nid, none) => processEvents guess oracle cfg nid rest
      | (nid, some out) =>
        let r := processEvents guess oracle cfg nid rest
        (r.1, (e, out) :: r.2)

/-- The successive values taken by the in-memory `last_id` after each loop
iteration of `main` (one entry per event of the fetched list). -/
def cursorTrace (guess : String → Option String) (oracle : Event → Nat → Bool)
    (cfg : Config) : Int → List Event → List Int
  | _, [] => []
  | last, e :: rest =>
    if e.id ≤ last then last :: cursorTrace guess oracle cfg last rest
    else
      (parse_event guess (oracle e) e cfg).1
        :: cursorTrace guess oracle cfg (parse_event guess (oracle e) e cfg).1 rest

/-- State of the cursor file `args.id_file_location` before or after a run:
absent, present with content Python's `int()` rejects, or present holding an
integer. -/
inductive CursorFileState
  | absent
  | unreadable
  | stored (n : Int)
deriving DecidableEq, Repr

/-- The cursor-loading step of `main`: `last_id = 0`, then if the file exists
`last_id = int(f.read())`. There is no try/except around `int`, so content
that `int()` rejects raises `ValueError` out of `main`; this uncaught
exception is the `Except.error` case. -/
def loadCursor : CursorFileState → Except Unit Int
  | CursorFileState.absent => Except.ok 0
  | CursorFileState.unreadable => Except.error ()
  | CursorFileState.stored n => Except.ok n

/-- Outcome of the single `requests.get` call of `fetch_events`: the request
raised `requests.RequestException`, or returned a status code together with
the decoded JSON body. -/
inductive HttpResult
  | netError
  | response (status : Nat) (body : List Event)

/-- `fetch_events(args, last_id)`: on status 200 return the decoded body; on
any other status or on `RequestException`, `sleep(args.timeout)` and return
None. First component: seconds slept. -/
def fetch_events (timeout : Nat) (r : HttpResult) : Nat × Option (List Event) :=
  match r with
  | HttpResult.netError => (timeout, none)
  | HttpResult.response s body =>
    if s == 200 then (0, some body) else (timeout, none)

/-- Observable outcome of one run of `main` when no exception escapes. -/
structure RunResult where
  exitCode : Nat
  fileAfter : CursorFileState
  written : Option Int
  notified : List (Event × (Nat × Nat × Bool))
deriving DecidableEq

/-- `main(args)`: load the cursor (may raise), fetch once, exit 1 on fetch
failure without touching the file, otherwise run the event loop and write the
final cursor back (a failed write is caught and logged; the file is then left
as it was). `written` records the value passed to `f.write`, `none` when the
write statement is never reached. (Named `main'` because Lean reserves
`main` for program entry points.) -/
def main' (guess : String → Option String) (oracle : Event → Nat → Bool)
    (cfg : Config) (fileBefore : CursorFileState) (http : HttpResult)
    (writeOk : Bool) : Except Unit RunResult :=
  match loadCursor fileBefore with
  | Except.error err => Except.error err
  | Except.ok last =>
    match (fetch_events cfg.timeout http).2 with
    | none => Except.ok ⟨1, fileBefore, none, []⟩
    | some events =>
      let r := processEvents guess oracle cfg last events
      Except.ok
        ⟨0, if writeOk then CursorFileState.stored r.1 else fileBefore,
          some r.1, r.2⟩

/-! ### Helper lemmas -/

/-- Every branch of `parse_event` returns `event["id"]` as its first
component. -/
theorem parse_event_fst (guess : String → Option String) (oracle : Nat → Bool)
    (e : Event) (cfg : Config) : (parse_event guess oracle e cfg).1 = e.id := by
  unfold parse_event
  repeat' split
  all_goals rfl

/-! ### C3 — cursor loading -/

/-- C3 counterexample: the claim says the load step never raises to the
caller and returns 0 on unreadable content; but on a cursor file whose
content `int()` rejects, `main` raises `ValueError` (modelled as
`Except.error`) instead of returning 0. -/
theorem C3_load_counterexample :
    loadCursor CursorFileState.unreadable = Except.error () := rfl

/-- C3 (amended): the load step returns 0 when the cursor file is absent and
the stored integer when the file holds one; but when the file exists with
content that is not a valid integer, the error propagates to the caller
(the run crashes) rather than being treated as 0. -/
theorem C3_load_behaviour :
    loadCursor CursorFileState.absent = Except.ok 0
      ∧ (∀ n : Int, loadCursor (CursorFileState.stored n) = Except.ok n)
      ∧ loadCursor CursorFileState.unreadable = Except.error () :=
  ⟨rfl, fun _ => rfl, rfl⟩

/-! ### C7 — notification retry bound -/

/-- C7: `send_event` makes exactly 3 delivery attempts when every attempt
fails (sleeping after each failure, hence between attempts) and then returns
normally without propagating an error; when attempt `k` (0-based) is the
first to succeed, exactly `k + 1` attempts are made and it stops. -/
theorem C7_retry_bound (oracle : Nat → Bool) :
    ((∀ i, i < 3 → oracle i = false) → send_event oracle = (3, 3, false))
      ∧ (∀ k, k < 3 → oracle k = true → (∀ i, i < k → oracle i = false) →
          send_event oracle = (k + 1, k, true)) := by
  constructor
  · intro h
    simp [send_event, sendAttempts, h 0 (by omega), h 1 (by omega), h 2 (by omega)]
  · intro k hk hsucc hfail
    interval_cases k
    · simp [send_event, sendAttempts, hsucc]
    · simp [send_event, sendAttempts, hfail 0 (by omega), hsucc]
    · simp [send_event, sendAttempts, hfail 0 (by omega), hfail 1 (by omega), hsucc]

/-- C7 witness: an always-failing delivery makes 3 attempts and is abandoned;
a delivery succeeding on the second attempt makes exactly 2 attempts. -/
theorem C7_retry_bound_witness :
    send_event (fun _ => false) = (3, 3, false)
      ∧ send_event (fun i => decide (i = 1)) = (2, 1, true) :=
  ⟨(C7_retry_bound (fun _ => false)).1 (fun _ _ => rfl),
    (C7_retry_bound (fun i => decide (i = 1))).2 1 (by omega) (by decide)
      (fun i hi => by interval_cases i; rfl)⟩

/-! ### C8 — fetch error signalling -/

/-- C8: `fetch_events` returns None after sleeping the configured timeout
when the request raises a network error or returns a non-200 status, and
returns the decoded event list (with no sleep) on a 200 response. -/
theorem C8_fetch_error_signalling (timeout : Nat) (body : List Event) :
    fetch_events timeout HttpResult.netError = (timeout, none)
      ∧ (∀ s, s ≠ 200 → fetch_events timeout (HttpResult.response s body) = (timeout, none))
      ∧ fetch_events timeout (HttpResult.response 200 body) = (0, some body) := by
  refine ⟨rfl, ?_, rfl⟩
  intro s hs
  simp [fetch_events, hs]

/-- C8 witness: a 500 response with timeout 10 yields a 10-second sleep and
None. -/
theorem C8_fetch_error_signalling_witness :
    (500 : Nat) ≠ 200 ∧ fetch_events 10 (HttpResult.response 500 []) = (10, none) :=
  ⟨by decide, (C8_fetch_error_signalling 10 []).2.1 500 (by decide)⟩

/-- Skipping step of the event loop: an event with `id <= last_id` is dropped
without consulting `parse_event` (hence without re-filtering and without any
notification). -/
theorem processEvents_cons_skip (guess : String → Option String)
    (oracle : Event → Nat → Bool) (cfg : Config) (last : Int) (e : Event)
    (rest : List Event) (h : e.id ≤ last) :
    processEvents guess oracle cfg last (e :: rest)
      = processEvents guess oracle cfg last rest := by
  simp only [processEvents]
  rw [if_pos h]

/-- The final cursor after one loop step equals the final cursor of the tail
started from `max last e.id`. -/
theorem processEvents_fst_cons (guess : String → Option String)
    (oracle : Event → Nat → Bool) (cfg : Config) (last : Int) (e : Event)
    (rest : List Event) :
    (processEvents guess oracle cfg last (e :: rest)).1
      = (processEvents guess oracle cfg (max last e.id) rest).1 := by
  by_cases h : e.id ≤ last
  · rw [processEvents_cons_skip guess oracle cfg last e rest h, max_eq_left h]
  · have hmax : max last e.id = e.id := max_eq_right (le_of_not_le h)
    simp only [processEvents]
    rw [if_neg h, hmax]
    rcases hp : parse_event guess (oracle e) e cfg with ⟨nid, out⟩
    have hnid : nid = e.id := by
      have := parse_event_fst guess (oracle e) e cfg
      rw [hp] at this
      exact this
    cases out <;> simp [hnid]

/-- The final in-memory cursor equals a left fold of `max` over the event
ids, started at the loaded cursor. -/
theorem processEvents_fst (guess : String → Option String)
    (oracle : Event → Nat → Bool) (cfg : Config) :
    ∀ (E : List Event) (last : Int),
      (processEvents guess oracle cfg last E).1
        = E.foldl (fun l e => max l e.id) last := by
  intro E
  induction E with
  | nil => intro last; rfl
  | cons e rest ih =>
    intro last
    rw [List.foldl_cons, processEvents_fst_cons, ih (max last e.id)]

/-- When every fetched event id is at most the loaded cursor, the loop is a
no-op: the cursor is unchanged and no notification is attempted. -/
theorem processEvents_all_le (guess : String → Option String)
    (oracle : Event → Nat → Bool) (cfg : Config) :
    ∀ (E : List Event) (last : Int), (∀ e ∈ E, e.id ≤ last) →
      processEvents guess oracle cfg last E = (last, []) := by
  intro E
  induction E with
  | nil => intro last _; rfl
  | cons e rest ih =>
    intro last hall
    rw [processEvents_cons_skip guess oracle cfg last e rest
      (hall e (List.mem_cons_self e rest))]
    exact ih last fun x hx => hall x (List.mem_cons_of_mem e hx)

/-- The starting value is a lower bound of the max-fold. -/
theorem le_foldl_max : ∀ (E : List Event) (P : Int),
    P ≤ E.foldl (fun l e => max l e.id) P := by
  intro E
  induction E with
  | nil => intro P; exact le_refl P
  | cons e rest ih =>
    intro P
    exact le_trans (le_max_left P e.id) (ih (max P e.id))

/-- Every member's id is a lower bound of the max-fold. -/
theorem id_le_foldl_max : ∀ (E : List Event) (P : Int) (e : Event), e ∈ E →
    e.id ≤ E.foldl (fun l x => max l x.id) P := by
  intro E
  induction E with
  | nil => intro P e he; exact absurd he (List.not_mem_nil e)
  | cons a rest ih =>
    intro P e he
    rcases List.mem_cons.mp he with rfl | hm
    · exact le_trans (le_max_right P e.id) (le_foldl_max rest (max P e.id))
    · exact ih (max P a.id) e hm

/-- The max-fold stays under any bound dominating the start and all ids. -/
theorem foldl_max_le : ∀ (E : List Event) (P m : Int), P ≤ m →
    (∀ e ∈ E, e.id ≤ m) → E.foldl (fun l e => max l e.id) P ≤ m := by
  intro E
  induction E with
  | nil => intro P m hP _; exact hP
  | cons a rest ih =>
    intro P m hP hall
    exact ih (max P a.id) m (max_le hP (hall a (List.mem_cons_self a rest)))
      fun e he => hall e (List.mem_cons_of_mem a he)

/-! ### C1 — idempotent replay -/

/-- C1: an event whose id is at most the loaded cursor is dropped by the loop
without being re-filtered and produces no notification; consequently,
re-running the loop on the same event list from the cursor the first run
ends with produces zero notifications. -/
theorem C1_idempotent_replay (guess : String → Option String)
    (oracle : Event → Nat → Bool) (cfg : Config) (C : Int) (E : List Event) :
    (∀ (e : Event) (rest : List Event), e.id ≤ C →
        processEvents guess oracle cfg C (e :: rest)
          = processEvents guess oracle cfg C rest)
      ∧ (processEvents guess oracle cfg
          (processEvents guess oracle cfg C E).1 E).2 = [] := by
  constructor
  · intro e rest h
    exact processEvents_cons_skip guess oracle cfg C e rest h
  · have hall : ∀ e ∈ E, e.id ≤ (processEvents guess oracle cfg C E).1 := by
      intro e he
      rw [processEvents_fst guess oracle cfg E C]
      exact id_le_foldl_max E C e he
    rw [processEvents_all_le guess oracle cfg E _ hall]

/-- A mimetype table for concrete runs: only `.mkv` files are videos. -/
def guessMkv : String → Option String :=
  fun p => if p.endsWith ".mkv" then some "video/x-matroska" else none

/-- A delivery oracle for concrete runs: every attempt succeeds. -/
def oracleOk : Event → Nat → Bool := fun _ _ => true

/-- A configuration for concrete runs: no label allow-list, movie filter
off, timeout 10. -/
def cfgPlain : Config := ⟨none, false, 10⟩

/-- A concrete event that passes every filter rule under `cfgPlain`. -/
def ev (i : Int) (p : String) : Event :=
  ⟨i, "LocalChangeDetected", ⟨"modified", "file", "movies", p⟩⟩

/-- C1 witness: with loaded cursor 5, the event with id 4 is dropped without
re-filtering, and replaying the whole fetched list from the final cursor of
the first run yields zero notifications. -/
theorem C1_idempotent_replay_witness :
    (ev 4 "/x/a.mkv").id ≤ 5
      ∧ processEvents guessMkv oracleOk cfgPlain 5 [ev 4 "/x/a.mkv", ev 6 "/x/b.mkv"]
          = processEvents guessMkv oracleOk cfgPlain 5 [ev 6 "/x/b.mkv"]
      ∧ (processEvents guessMkv oracleOk cfgPlain
          (processEvents guessMkv oracleOk cfgPlain 5
            [ev 4 "/x/a.mkv", ev 6 "/x/b.mkv"]).1
          [ev 4 "/x/a.mkv", ev 6 "/x/b.mkv"]).2 = [] :=
  ⟨by decide,
    (C1_idempotent_replay guessMkv oracleOk cfgPlain 5
      [ev 4 "/x/a.mkv", ev 6 "/x/b.mkv"]).1 (ev 4 "/x/a.mkv") [ev 6 "/x/b.mkv"]
      (by decide),
    (C1_idempotent_replay guessMkv oracleOk cfgPlain 5
      [ev 4 "/x/a.mkv", ev 6 "/x/b.mkv"]).2⟩

/-! ### C2 — monotonic cursor -/

/-- Under an ascending chain of ids, the head's id is at most the last
element's id. -/
theorem chain_head_le_getLast :
    ∀ (E : List Event) (a lastE : Event),
      List.Chain' (fun x y : Event => x.id ≤ y.id) (a :: E) →
      (a :: E).getLast? = some lastE → a.id ≤ lastE.id := by
  intro E
  induction E with
  | nil =>
    intro a lastE _ hlast
    simp only [List.getLast?_singleton, Option.some.injEq] at hlast
    rw [hlast]
  | cons b t ih =>
    intro a lastE hchain hlast
    rcases List.chain'_cons.mp hchain with ⟨hab, htail⟩
    rw [List.getLast?_cons_cons] at hlast
    exact le_trans hab (ih b lastE htail hlast)

/-- Under an ascending chain of ids, every member's id is at most the last
element's id. -/
theorem chain_all_le_getLast :
    ∀ (E : List Event) (lastE : Event),
      List.Chain' (fun x y : Event => x.id ≤ y.id) E →
      E.getLast? = some lastE → ∀ e ∈ E, e.id ≤ lastE.id := by
  intro E
  induction E with
  | nil => intro lastE _ _ e he; exact absurd he (List.not_mem_nil e)
  | cons a t ih =>
    intro lastE hchain hlast e he
    rcases List.mem_cons.mp he with rfl | hm
    · exact chain_head_le_getLast t e lastE hchain hlast
    · cases t with
      | nil => exact absurd hm (List.not_mem_nil e)
      | cons b t' =>
        rw [List.getLast?_cons_cons] at hlast
        exact ih lastE (List.chain'_cons.mp hchain).2 hlast e hm

/-- The last element of a list is a member. -/
theorem mem_of_getLast?_eq : ∀ (E : List Event) (lastE : Event),
    E.getLast? = some lastE → lastE ∈ E := by
  intro E
  induction E with
  | nil => intro lastE h; exact absurd h (by simp)
  | cons a t ih =>
    intro lastE h
    cases t with
    | nil =>
      simp only [List.getLast?_singleton, Option.some.injEq] at h
      rw [h]
      exact List.mem_cons_self lastE []
    | cons b t' =>
      rw [List.getLast?_cons_cons] at h
      exact List.mem_cons_of_mem a (ih lastE h)

/-- C2: for a fetched list in ascending id order, the cursor value written at
the end of a successful run is the loaded cursor `P` when the list is empty,
and `max` of the last event's id and `P` otherwise; in all cases it is at
least `P` (the persisted cursor never decreases). -/
theorem C2_monotonic_cursor (guess : String → Option String)
    (oracle : Event → Nat → Bool) (cfg : Config) (P : Int) (E : List Event)
    (hasc : List.Chain' (fun x y : Event => x.id ≤ y.id) E) :
    (E = [] → (processEvents guess oracle cfg P E).1 = P)
      ∧ (∀ lastE : Event, E.getLast? = some lastE →
          (processEvents guess oracle cfg P E).1 = max lastE.id P)
      ∧ P ≤ (processEvents guess oracle cfg P E).1 := by
  refine ⟨?_, ?_, ?_⟩
  · intro h
    rw [h]
    rfl
  · intro lastE hlast
    rw [processEvents_fst guess oracle cfg E P]
    have hub : ∀ e ∈ E, e.id ≤ lastE.id := chain_all_le_getLast E lastE hasc hlast
    have hmem : lastE ∈ E := mem_of_getLast?_eq E lastE hlast
    rw [max_comm lastE.id P]
    apply le_antisymm
    · exact foldl_max_le E P (max P lastE.id) (le_max_left P lastE.id)
        fun e he => le_trans (hub e he) (le_max_right P lastE.id)
    · exact max_le (le_foldl_max E P) (id_le_foldl_max E P lastE hmem)
  · rw [processEvents_fst guess oracle cfg E P]
    exact le_foldl_max E P

/-- C2 witness: loading cursor 5 and fetching the single event with id 6
persists cursor `max 6 5 = 6`, which is at least 5. -/
theorem C2_monotonic_cursor_witness :
    List.Chain' (fun x y : Event => x.id ≤ y.id) [ev 6 "/x/b.mkv"]
      ∧ [ev 6 "/x/b.mkv"].getLast? = some (ev 6 "/x/b.mkv")
      ∧ (processEvents guessMkv oracleOk cfgPlain 5 [ev 6 "/x/b.mkv"]).1
          = max (ev 6 "/x/b.mkv").id 5
      ∧ (5 : Int) ≤ (processEvents guessMkv oracleOk cfgPlain 5 [ev 6 "/x/b.mkv"]).1 :=
  ⟨List.chain'_singleton _, rfl,
    (C2_monotonic_cursor guessMkv oracleOk cfgPlain 5 [ev 6 "/x/b.mkv"]
      (List.chain'_singleton _)).2.1 (ev 6 "/x/b.mkv") rfl,
    (C2_monotonic_cursor guessMkv oracleOk cfgPlain 5 [ev 6 "/x/b.mkv"]
      (List.chain'_singleton _)).2.2⟩

/-! ### C4 — fetch-failure atomicity -/

/-- C4: when the cursor loads successfully but the fetch signals the
transient-error value None, the run terminates with exit status 1, nothing is
ever written to the cursor file, and the file state after the run equals the
file state before it. -/
theorem C4_fetch_failure_atomicity (guess : String → Option String)
    (oracle : Event → Nat → Bool) (cfg : Config) (fileBefore : CursorFileState)
    (http : HttpResult) (writeOk : Bool) (c : Int)
    (hload : loadCursor fileBefore = Except.ok c)
    (hfail : (fetch_events cfg.timeout http).2 = none) :
    main' guess oracle cfg fileBefore http writeOk
      = Except.ok ⟨1, fileBefore, none, []⟩ := by
  unfold main'
  rw [hload, hfail]

/-- C4 witness: a network error during the fetch, starting from a stored
cursor 5, exits with status 1 and leaves the cursor file holding 5. -/
theorem C4_fetch_failure_atomicity_witness :
    loadCursor (CursorFileState.stored 5) = Except.ok 5
      ∧ (fetch_events cfgPlain.timeout HttpResult.netError).2 = none
      ∧ main' guessMkv oracleOk cfgPlain (CursorFileState.stored 5)
          HttpResult.netError true
          = Except.ok ⟨1, CursorFileState.stored 5, none, []⟩ :=
  ⟨rfl, rfl,
    C4_fetch_failure_atomicity guessMkv oracleOk cfgPlain
      (CursorFileState.stored 5) HttpResult.netError true 5 rfl rfl⟩

/-! ### C6 / C10 — in-memory cursor advancement -/

/-- A loop step on an event with `id > last_id` sets the in-memory cursor to
that event's id. -/
theorem cursorTrace_head_step (guess : String → Option String)
    (oracle : Event → Nat → Bool) (cfg : Config) (last : Int) (e : Event)
    (rest : List Event) (h : ¬ e.id ≤ last) :
    (cursorTrace guess oracle cfg last (e :: rest)).head? = some e.id := by
  simp only [cursorTrace]
  rw [if_neg h]
  simp [parse_event_fst]

/-- The last entry of the cursor trace (starting point prepended) is the
final cursor computed by the loop. -/
theorem cursorTrace_getLast (guess : String → Option String)
    (oracle : Event → Nat → Bool) (cfg : Config) :
    ∀ (E : List Event) (last : Int),
      (last :: cursorTrace guess oracle cfg last E).getLast?
        = some (processEvents guess oracle cfg last E).1 := by
  intro E
  induction E with
  | nil => intro last; rfl
  | cons e rest ih =>
    intro last
    by_cases h : e.id ≤ last
    · rw [processEvents_cons_skip guess oracle cfg last e rest h]
      simp only [cursorTrace]
      rw [if_pos h, List.getLast?_cons_cons]
      exact ih last
    · have hfst : (processEvents guess oracle cfg last (e :: rest)).1
          = (processEvents guess oracle cfg e.id rest).1 := by
        rw [processEvents_fst_cons, max_eq_right (le_of_not_le h)]
      rw [hfst]
      simp only [cursorTrace]
      rw [if_neg h, parse_event_fst, List.getLast?_cons_cons]
      exact ih e.id

/-- The in-memory cursor never decreases along the loop, for any fetched
list whatsoever. -/
theorem cursorTrace_chain (guess : String → Option String)
    (oracle : Event → Nat → Bool) (cfg : Config) :
    ∀ (E : List Event) (last : Int),
      List.Chain' (fun a b : Int => a ≤ b)
        (last :: cursorTrace guess oracle cfg last E) := by
  intro E
  induction E with
  | nil => intro last; exact List.chain'_singleton last
  | cons e rest ih =>
    intro last
    by_cases h : e.id ≤ last
    · simp only [cursorTrace]
      rw [if_pos h]
      exact List.chain'_cons.mpr ⟨le_refl last, ih last⟩
    · simp only [cursorTrace]
      rw [if_neg h, parse_event_fst]
      exact List.chain'_cons.mpr ⟨le_of_not_le h, ih e.id⟩

/-- C10: for any fetched event list, ordered or not, the successive values
of the in-memory cursor form a non-decreasing chain starting at the loaded
cursor and ending at the loop's final cursor; and every assignment (an event
with `id > last_id`) moves the cursor up to exactly that id. -/
theorem C10_inmemory_cursor_monotone (guess : String → Option String)
    (oracle : Event → Nat → Bool) (cfg : Config) (P : Int) (E : List Event) :
    List.Chain' (fun a b : Int => a ≤ b) (P :: cursorTrace guess oracle cfg P E)
      ∧ (P :: cursorTrace guess oracle cfg P E).getLast?
          = some (processEvents guess oracle cfg P E).1
      ∧ (∀ (last : Int) (e : Event) (rest : List Event), last < e.id →
          (cursorTrace guess oracle cfg last (e :: rest)).head? = some e.id) :=
  ⟨cursorTrace_chain guess oracle cfg E P,
    cursorTrace_getLast guess oracle cfg E P,
    fun last e rest h =>
      cursorTrace_head_step guess oracle cfg last e rest (not_le.mpr h)⟩

/-- C10 witness: an out-of-order fetched list still yields a non-decreasing
cursor trace, and the assignment for id 9 from cursor 2 sets the cursor
to 9. -/
theorem C10_inmemory_cursor_monotone_witness :
    List.Chain' (fun a b : Int => a ≤ b)
      ((2 : Int) :: cursorTrace guessMkv oracleOk cfgPlain 2
        [ev 9 "/x/c.mkv", ev 3 "/x/a.mkv"])
      ∧ (2 : Int) < (ev 9 "/x/c.mkv").id
      ∧ (cursorTrace guessMkv oracleOk cfgPlain 2
          [ev 9 "/x/c.mkv", ev 3 "/x/a.mkv"]).head? = some (ev 9 "/x/c.mkv").id :=
  ⟨(C10_inmemory_cursor_monotone guessMkv oracleOk cfgPlain 2
      [ev 9 "/x/c.mkv", ev 3 "/x/a.mkv"]).1,
    by decide,
    (C10_inmemory_cursor_monotone guessMkv oracleOk cfgPlain 2
      [ev 9 "/x/c.mkv", ev 3 "/x/a.mkv"]).2.2 2 (ev 9 "/x/c.mkv")
      [ev 3 "/x/a.mkv"] (by decide)⟩

/-- C6: independence of cursor advancement from the filter and delivery
outcome: `parse_event` returns the event's id in every branch (for every
mimetype table, every delivery oracle, every configuration), and a loop step
on an event with `id > last_id` always sets the in-memory cursor to that id. -/
theorem C6_cursor_advancement_independent :
    (∀ (guess : String → Option String) (oracle : Nat → Bool) (e : Event)
        (cfg : Config), (parse_event guess oracle e cfg).1 = e.id)
      ∧ (∀ (guess : String → Option String) (oracle : Event → Nat → Bool)
          (cfg : Config) (last : Int) (e : Event) (rest : List Event),
          last < e.id →
          (cursorTrace guess oracle cfg last (e :: rest)).head? = some e.id) :=
  ⟨fun guess oracle e cfg => parse_event_fst guess oracle e cfg,
    fun guess oracle cfg last e rest h =>
      cursorTrace_head_step guess oracle cfg last e rest (not_le.mpr h)⟩

/-- A delivery oracle on which every attempt fails. -/
def oracleFail : Event → Nat → Bool := fun _ _ => false

/-- An event that the filter skips (a remote change). -/
def evRemote (i : Int) (p : String) : Event :=
  ⟨i, "RemoteChangeDetected", ⟨"modified", "file", "movies", p⟩⟩

/-- C6 witness: the cursor advances to the event's id both for a skipped
remote event and for a qualifying event whose delivery fails on every
attempt. -/
theorem C6_cursor_advancement_independent_witness :
    (parse_event guessMkv (fun _ => false) (evRemote 7 "/x/a.mkv") cfgPlain).1
        = (evRemote 7 "/x/a.mkv").id
      ∧ (3 : Int) < (ev 8 "/x/b.mkv").id
      ∧ (cursorTrace guessMkv oracleFail cfgPlain 3 [ev 8 "/x/b.mkv"]).head?
          = some (ev 8 "/x/b.mkv").id :=
  ⟨C6_cursor_advancement_independent.1 guessMkv (fun _ => false)
      (evRemote 7 "/x/a.mkv") cfgPlain,
    by decide,
    C6_cursor_advancement_independent.2 guessMkv oracleFail cfgPlain 3
      (ev 8 "/x/b.mkv") [] (by decide)⟩

/-! ### C5 — filter precedence -/

/-- Evaluating a concatenation of rule lists: the second list is reached
only when every rule of the first passes. -/
theorem firstFailEval_append (passes : Rule → Bool) :
    ∀ (xs ys : List Rule),
      firstFailEval passes (xs ++ ys)
        = if (firstFailEval passes xs).2 then
            ((firstFailEval passes xs).1 ++ (firstFailEval passes ys).1,
              (firstFailEval passes ys).2)
          else firstFailEval passes xs := by
  intro xs ys
  induction xs with
  | nil => simp [firstFailEval]
  | cons r rs ih =>
    cases h : passes r
    · simp [firstFailEval, h]
    · cases h2 : (firstFailEval passes rs).2 <;>
        simp [firstFailEval, h, h2, ih]

/-- The sample stage agrees with the spec-side evaluator on `[sample]`. -/
theorem sampleTrace_eq (guess : String → Option String) (cfg : Config)
    (e : Event) (t : List Rule) :
    sampleTrace e t
      = (t ++ (firstFailEval (rulePasses guess cfg e) [Rule.sample]).1,
          (firstFailEval (rulePasses guess cfg e) [Rule.sample]).2) := by
  cases hsb : sampleBlocks e <;>
    simp [sampleTrace, firstFailEval, rulePasses, hsb]

/-- The movie stage agrees with the spec-side evaluator on the applicable
tail starting at the movie rule. -/
theorem movieTrace_eq (guess : String → Option String) (cfg : Config)
    (e : Event) (t : List Rule) :
    movieTrace guess cfg e t
      = (t ++ (firstFailEval (rulePasses guess cfg e)
            ((if cfg.filter_movies then [Rule.movie] else []) ++ [Rule.sample])).1,
          (firstFailEval (rulePasses guess cfg e)
            ((if cfg.filter_movies then [Rule.movie] else []) ++ [Rule.sample])).2) := by
  cases hfm : cfg.filter_movies
  · simp only [movieTrace, hfm, Bool.false_eq_true, if_false, List.nil_append]
    exact sampleTrace_eq guess cfg e t
  · cases hmf : movieFails guess e
    · simp only [movieTrace, hfm, hmf, Bool.false_eq_true, if_true, if_false]
      rw [sampleTrace_eq guess cfg e (t ++ [Rule.movie])]
      simp [firstFailEval, rulePasses, hmf]
    · simp [movieTrace, hfm, hmf, firstFailEval, rulePasses]

/-- The label stage agrees with the spec-side evaluator on the applicable
tail starting at the label rule. -/
theorem labelTrace_eq (guess : String → Option String) (cfg : Config)
    (e : Event) (t : List Rule) :
    labelTrace guess cfg e t
      = (t ++ (firstFailEval (rulePasses guess cfg e)
            ((if cfg.label.isSome then [Rule.label] else [])
              ++ ((if cfg.filter_movies then [Rule.movie] else [])
                ++ [Rule.sample]))).1,
          (firstFailEval (rulePasses guess cfg e)
            ((if cfg.label.isSome then [Rule.label] else [])
              ++ ((if cfg.filter_movies then [Rule.movie] else [])
                ++ [Rule.sample]))).2) := by
  rcases hlab : cfg.label with _ | ls
  · simp only [labelTrace, hlab, Option.isSome_none, Bool.false_eq_true, if_false,
      List.nil_append]
    exact movieTrace_eq guess cfg e t
  · cases hlf : labelFails ls e
    · simp only [labelTrace, hlab, Option.isSome_some, if_true, hlf,
        Bool.false_eq_true, if_false]
      rw [movieTrace_eq guess cfg e (t ++ [Rule.label])]
      simp [firstFailEval, rulePasses, hlab, hlf]
    · simp [labelTrace, hlab, hlf, firstFailEval, rulePasses]

/-- The second component of the sample stage. -/
theorem sampleTrace_snd (e : Event) (t : List Rule) :
    (sampleTrace e t).2 = !(sampleBlocks e) := by
  cases hsb : sampleBlocks e <;> simp [sampleTrace, hsb]

/-- The second component of the movie stage. -/
theorem movieTrace_snd (guess : String → Option String) (cfg : Config)
    (e : Event) (t : List Rule) :
    (movieTrace guess cfg e t).2
      = (!(movieBlocks guess cfg e) && !(sampleBlocks e)) := by
  cases hfm : cfg.filter_movies <;> cases hmf : movieFails guess e <;>
    simp [movieTrace, movieBlocks, sampleTrace_snd, hfm, hmf]

/-- The second component of the label stage. -/
theorem labelTrace_snd (guess : String → Option String) (cfg : Config)
    (e : Event) (t : List Rule) :
    (labelTrace guess cfg e t).2
      = (!(labelBlocks cfg e)
          && (!(movieBlocks guess cfg e) && !(sampleBlocks e))) := by
  rcases hlab : cfg.label with _ | ls
  · simp [labelTrace, labelBlocks, hlab, movieTrace_snd]
  · cases hlf : labelFails ls e <;>
      simp [labelTrace, labelBlocks, hlab, hlf, movieTrace_snd]

/-- C5: the filter of `parse_event` evaluates exactly the applicable rules,
in source order, stopping at the first failing rule (the spec-side
first-failure evaluator reproduces the instrumented trace exactly), and
`send_event` is invoked if and only if every evaluated rule passes. -/
theorem C5_filter_precedence (guess : String → Option String)
    (oracle : Nat → Bool) (cfg : Config) (e : Event) :
    shouldNotifyTrace guess cfg e
        = firstFailEval (rulePasses guess cfg e) (applicableRules cfg)
      ∧ ((shouldNotifyTrace guess cfg e).2 = true
          ↔ (parse_event guess oracle e cfg).2.isSome = true) := by
  constructor
  · cases hact : e.data.action == "modified"
    · simp [shouldNotifyTrace, applicableRules, firstFailEval, rulePasses,
        hact, bne]
    · cases hety : e.etype == "LocalChangeDetected"
      · simp [shouldNotifyTrace, applicableRules, firstFailEval, rulePasses,
          hact, hety, bne]
      · cases hft : e.data.dtype == "file"
        · simp [shouldNotifyTrace, applicableRules, firstFailEval, rulePasses,
            hact, hety, hft, bne]
        · have h3 : shouldNotifyTrace guess cfg e
              = labelTrace guess cfg e [Rule.action, Rule.etype, Rule.ftype] := by
            simp [shouldNotifyTrace, hact, hety, hft, bne]
          rw [h3, labelTrace_eq]
          simp [applicableRules, firstFailEval, rulePasses, hact, hety, hft,
            List.append_assoc]
  · cases hact : e.data.action == "modified" <;>
      cases hety : e.etype == "LocalChangeDetected" <;>
      cases hft : e.data.dtype == "file" <;>
      simp [shouldNotifyTrace, parse_event, bne, hact, hety, hft,
        labelTrace_snd] <;>
      cases hlb : labelBlocks cfg e <;>
      cases hmb : movieBlocks guess cfg e <;>
      cases hsb : sampleBlocks e <;>
      simp [hlb, hmb, hsb]

/-! ### C9 — sample exclusion -/

/-- C9: for an event that passes rules 1–5, `parse_event` skips it (invokes
no notification) exactly when the path contains the literal substring
"sample" or the literal substring "Sample" (Python's case-sensitive `in`,
checked against both spellings only); and the event's id is still returned
for cursor advancement. -/
theorem C9_sample_exclusion (guess : String → Option String)
    (oracle : Nat → Bool) (cfg : Config) (e : Event)
    (h1 : e.data.action = "modified") (h2 : e.etype = "LocalChangeDetected")
    (h3 : e.data.dtype = "file") (h4 : labelBlocks cfg e = false)
    (h5 : movieBlocks guess cfg e = false) :
    ((parse_event guess oracle e cfg).2 = none
        ↔ (pyIn "sample" e.data.path || pyIn "Sample" e.data.path) = true)
      ∧ (parse_event guess oracle e cfg).1 = e.id := by
  refine ⟨?_, parse_event_fst guess oracle e cfg⟩
  have hpy : (pyIn "sample" e.data.path || pyIn "Sample" e.data.path)
      = sampleBlocks e := rfl
  rw [hpy]
  cases hsb : sampleBlocks e <;>
    simp [parse_event, h1, h2, h3, h4, h5, hsb]

/-- C9 witness: a local modified file event whose path contains "SAMPLE"
(but neither "sample" nor "Sample") is not excluded: the sample rule does
not match, so `parse_event` reaches `send_event`. -/
theorem C9_sample_exclusion_witness :
    ((ev 6 "/x/Movie.SAMPLE.mkv").data.action = "modified"
        ∧ labelBlocks cfgPlain (ev 6 "/x/Movie.SAMPLE.mkv") = false
        ∧ movieBlocks guessMkv cfgPlain (ev 6 "/x/Movie.SAMPLE.mkv") = false)
      ∧ ((parse_event guessMkv (fun _ => true) (ev 6 "/x/Movie.SAMPLE.mkv")
            cfgPlain).2 = none
          ↔ (pyIn "sample" (ev 6 "/x/Movie.SAMPLE.mkv").data.path
              || pyIn "Sample" (ev 6 "/x/Movie.SAMPLE.mkv").data.path) = true)
      ∧ (pyIn "sample" "/x/Movie.SAMPLE.mkv"
          || pyIn "Sample" "/x/Movie.SAMPLE.mkv") = false :=
  ⟨⟨rfl, rfl, rfl⟩,
    (C9_sample_exclusion guessMkv (fun _ => true) cfgPlain
      (ev 6 "/x/Movie.SAMPLE.mkv") rfl rfl rfl rfl rfl).1,
    by decide⟩
